import Mathlib

/-!
Verification of the mtgjson-sdk-golang core: the parameterized SQL query
builder (`db/sqlbuilder.go`), the cache/versioning manager (`db/cache.go`,
`db/config.go`) and the view materializer (`connection.go`), shallowly
embedded in Lean 4.

Conventions of the embedding:
* Go strings are Lean `String`s; `strings.ReplaceAll` is re-implemented
  faithfully (leftmost, non-overlapping replacement) as `goReplaceAll`.
* Go `int` is `Int`; the `float64` fuzzy threshold is modelled as `ℚ`
  (ordinary ordered-field comparisons; NaN is out of scope).
* Go `panic` is modelled by returning `none` from the panicking method:
  on a bad input no updated builder state exists.
* Effectful code (network, filesystem, DuckDB execution) is modelled by
  explicit environment records of oracle functions plus a trace of
  emitted effects.
* Parameter values (`any` in Go) are a type parameter `α`.
-/

/-- Leftmost non-overlapping replacement on character lists, with explicit
fuel (structural recursion so the kernel can evaluate it).  Fuel is the
length of the subject string, which suffices because every step consumes
at least one character when the pattern is nonempty.  A call with an empty
pattern returns the subject unchanged (the Go code never does that). -/
def goReplaceAllAux (pat rep : List Char) : Nat → List Char → List Char
  | 0, s => s
  | _ + 1, [] => []
  | fuel + 1, c :: rest =>
    if pat.isPrefixOf (c :: rest) && !pat.isEmpty then
      rep ++ goReplaceAllAux pat rep fuel (List.drop pat.length (c :: rest))
    else
      c :: goReplaceAllAux pat rep fuel rest

/-- Embedding of Go `strings.ReplaceAll(s, pat, rep)`. -/
def goReplaceAll (s pat rep : String) : String :=
  ⟨goReplaceAllAux pat.data rep.data s.data.length s.data⟩

/-- Substring test on character lists (used to state which placeholder
tokens occur in a built SQL text). -/
def containsSub : List Char → List Char → Bool
  | [], pat => pat.isEmpty
  | c :: rest, pat => pat.isPrefixOf (c :: rest) || containsSub rest pat

/-- String-level substring test. -/
def containsStr (s pat : String) : Bool :=
  containsSub s.data pat.data

/-- Embedding of `SQLBuilder` (db/sqlbuilder.go).  The `from` field is named
`fromTable` because `from` is a Lean keyword.  Parameter values are `α`. -/
structure SQLBuilder (α : Type) where
  selectCols : List String
  isDistinct : Bool
  fromTable : String
  joins : List String
  wheres : List String
  params : List α
  groupBys : List String
  havings : List String
  orderBys : List String
  limitVal : Option Int
  offsetVal : Option Int
deriving DecidableEq, Repr

/-- Embedding of `NewSQLBuilder`. -/
def NewSQLBuilder (α : Type) (table : String) : SQLBuilder α :=
  { selectCols := ["*"]
    isDistinct := false
    fromTable := table
    joins := []
    wheres := []
    params := []
    groupBys := []
    havings := []
    orderBys := []
    limitVal := none
    offsetVal := none }

namespace SQLBuilder

variable {α : Type}

/-- Embedding of `SQLBuilder.Select`. -/
def Select (b : SQLBuilder α) (cols : List String) : SQLBuilder α :=
  { b with selectCols := cols }

/-- Embedding of `SQLBuilder.Distinct`. -/
def Distinct (b : SQLBuilder α) : SQLBuilder α :=
  { b with isDistinct := true }

/-- Embedding of `SQLBuilder.Join`. -/
def Join (b : SQLBuilder α) (clause : String) : SQLBuilder α :=
  { b with joins := b.joins ++ [clause] }

/-- The descending remap loop shared by `Where` and `Having`:
`for i := len(params); i >= 1; i--` replacing `$i` by `$(offset+i)`. -/
def remapDown (offset : Nat) : String → Nat → String
  | remapped, 0 => remapped
  | remapped, i + 1 =>
    remapDown offset
      (goReplaceAll remapped ("$" ++ toString (i + 1)) ("$" ++ toString (offset + (i + 1))))
      i

/-- Embedding of `SQLBuilder.Where`. -/
def Where (b : SQLBuilder α) (condition : String) (ps : List α) : SQLBuilder α :=
  let offset := b.params.length
  let remapped := remapDown offset condition ps.length
  { b with wheres := b.wheres ++ [remapped], params := b.params ++ ps }

/-- Embedding of `SQLBuilder.WhereLike`. -/
def WhereLike (b : SQLBuilder α) (column : String) (value : α) : SQLBuilder α :=
  let idx := b.params.length + 1
  { b with
    wheres := b.wheres ++ ["LOWER(" ++ column ++ ") LIKE LOWER($" ++ toString idx ++ ")"]
    params := b.params ++ [value] }

/-- One iteration of the `WhereIn` loop: the placeholder index is
recomputed from the growing parameter slice on every iteration. -/
def whereInStep : List String × List α → α → List String × List α := fun acc v =>
  let idx := acc.2.length + 1
  (acc.1 ++ ["$" ++ toString idx], acc.2 ++ [v])

/-- Embedding of `SQLBuilder.WhereIn`.  The fold mirrors the Go loop. -/
def WhereIn (b : SQLBuilder α) (column : String) (values : List α) : SQLBuilder α :=
  if values.isEmpty then
    { b with wheres := b.wheres ++ ["FALSE"] }
  else
    let folded := values.foldl whereInStep ([], b.params)
    { b with
      wheres := b.wheres ++ [column ++ " IN (" ++ String.intercalate ", " folded.1 ++ ")"]
      params := folded.2 }

/-- Embedding of `SQLBuilder.WhereEq`. -/
def WhereEq (b : SQLBuilder α) (column : String) (value : α) : SQLBuilder α :=
  let idx := b.params.length + 1
  { b with
    wheres := b.wheres ++ [column ++ " = $" ++ toString idx]
    params := b.params ++ [value] }

/-- Embedding of `SQLBuilder.WhereGTE`. -/
def WhereGTE (b : SQLBuilder α) (column : String) (value : α) : SQLBuilder α :=
  let idx := b.params.length + 1
  { b with
    wheres := b.wheres ++ [column ++ " >= $" ++ toString idx]
    params := b.params ++ [value] }

/-- Embedding of `SQLBuilder.WhereLTE`. -/
def WhereLTE (b : SQLBuilder α) (column : String) (value : α) : SQLBuilder α :=
  let idx := b.params.length + 1
  { b with
    wheres := b.wheres ++ [column ++ " <= $" ++ toString idx]
    params := b.params ++ [value] }

/-- Embedding of `SQLBuilder.WhereRegex`. -/
def WhereRegex (b : SQLBuilder α) (column : String) (pat : α) : SQLBuilder α :=
  let idx := b.params.length + 1
  { b with
    wheres := b.wheres ++ ["regexp_matches(" ++ column ++ ", $" ++ toString idx ++ ")"]
    params := b.params ++ [pat] }

/-- Rendering of the fuzzy threshold into SQL text, standing in for Go's
`%g` verb.  `%g` prints the shortest decimal that uniquely identifies the
float, hence is injective on values; this rendering of an exact rational
is likewise deterministic and injective, which is all the claims use. -/
def formatG (q : ℚ) : String :=
  if q.den = 1 then toString q.num else toString q.num ++ "/" ++ toString q.den

/-- Embedding of `SQLBuilder.WhereFuzzy`.  The Go code panics when the
threshold is outside `[0,1]`; that is modelled by `none`. -/
def WhereFuzzy (b : SQLBuilder α) (column : String) (value : α) (threshold : ℚ) :
    Option (SQLBuilder α) :=
  if threshold < 0 ∨ threshold > 1 then
    none
  else
    let idx := b.params.length + 1
    some { b with
      wheres := b.wheres ++
        ["jaro_winkler_similarity(" ++ column ++ ", $" ++ toString idx ++ ") > " ++
          formatG threshold]
      params := b.params ++ [value] }

/-- Embedding of `WhereOrCondition`. -/
structure WhereOrCondition (α : Type) where
  SQL : String
  Value : α
deriving DecidableEq, Repr

/-- One iteration of the `WhereOr` loop: remap the fragment's local `$1`
to the next global index and absorb the value. -/
def whereOrStep : List String × List α → WhereOrCondition α → List String × List α :=
  fun acc cond =>
    let idx := acc.2.length + 1
    let remapped := goReplaceAll cond.SQL "$1" ("$" ++ toString idx)
    (acc.1 ++ [remapped], acc.2 ++ [cond.Value])

/-- Embedding of `SQLBuilder.WhereOr`.  The fold mirrors the Go loop. -/
def WhereOr (b : SQLBuilder α) (conditions : List (WhereOrCondition α)) : SQLBuilder α :=
  if conditions.isEmpty then b
  else
    let folded := conditions.foldl whereOrStep ([], b.params)
    { b with
      wheres := b.wheres ++ ["(" ++ String.intercalate " OR " folded.1 ++ ")"]
      params := folded.2 }

/-- Embedding of `SQLBuilder.GroupBy`. -/
def GroupBy (b : SQLBuilder α) (columns : List String) : SQLBuilder α :=
  { b with groupBys := b.groupBys ++ columns }

/-- Embedding of `SQLBuilder.Having` (same remap loop as `Where`). -/
def Having (b : SQLBuilder α) (condition : String) (ps : List α) : SQLBuilder α :=
  let offset := b.params.length
  let remapped := remapDown offset condition ps.length
  { b with havings := b.havings ++ [remapped], params := b.params ++ ps }

/-- Embedding of `SQLBuilder.OrderBy`. -/
def OrderBy (b : SQLBuilder α) (clauses : List String) : SQLBuilder α :=
  { b with orderBys := b.orderBys ++ clauses }

/-- Embedding of `SQLBuilder.Limit`; the panic on a negative argument is
modelled by `none`. -/
def Limit (b : SQLBuilder α) (n : Int) : Option (SQLBuilder α) :=
  if n < 0 then none else some { b with limitVal := some n }

/-- Embedding of `SQLBuilder.Offset`; the panic on a negative argument is
modelled by `none`. -/
def Offset (b : SQLBuilder α) (n : Int) : Option (SQLBuilder α) :=
  if n < 0 then none else some { b with offsetVal := some n }

/-- Embedding of `SQLBuilder.Build`. -/
def Build (b : SQLBuilder α) : String × List α :=
  let distinct := if b.isDistinct then "DISTINCT " else ""
  let parts : List String := ["SELECT " ++ distinct ++ String.intercalate ", " b.selectCols]
  let parts := parts ++ ["FROM " ++ b.fromTable]
  let parts := parts ++ b.joins
  let parts := if b.wheres.isEmpty then parts else
    parts ++ ["WHERE " ++ String.intercalate " AND " b.wheres]
  let parts := if b.groupBys.isEmpty then parts else
    parts ++ ["GROUP BY " ++ String.intercalate ", " b.groupBys]
  let parts := if b.havings.isEmpty then parts else
    parts ++ ["HAVING " ++ String.intercalate " AND " b.havings]
  let parts := if b.orderBys.isEmpty then parts else
    parts ++ ["ORDER BY " ++ String.intercalate ", " b.orderBys]
  let parts := match b.limitVal with
    | some n => parts ++ ["LIMIT " ++ toString n]
    | none => parts
  let parts := match b.offsetVal with
    | some n => parts ++ ["OFFSET " ++ toString n]
    | none => parts
  (String.intercalate "\n" parts, b.params)

end SQLBuilder

/-- A single chainable builder call: a deep embedding of the `SQLBuilder`
API used to quantify over "every sequence of builder calls". -/
inductive BOp (α : Type) where
  | select (cols : List String)
  | distinct
  | join (clause : String)
  | whereC (condition : String) (ps : List α)
  | whereLike (column : String) (value : α)
  | whereIn (column : String) (values : List α)
  | whereEq (column : String) (value : α)
  | whereGTE (column : String) (value : α)
  | whereLTE (column : String) (value : α)
  | whereRegex (column : String) (pat : α)
  | whereFuzzy (column : String) (value : α) (threshold : ℚ)
  | whereOr (conditions : List (SQLBuilder.WhereOrCondition α))
  | groupBy (columns : List String)
  | having (condition : String) (ps : List α)
  | orderBy (clauses : List String)
  | limit (n : Int)
  | offset (n : Int)
deriving DecidableEq

/-- Apply one builder call; `none` models a Go panic. -/
def applyOp {α : Type} (b : SQLBuilder α) : BOp α → Option (SQLBuilder α)
  | .select cols => some (b.Select cols)
  | .distinct => some b.Distinct
  | .join clause => some (b.Join clause)
  | .whereC c ps => some (b.Where c ps)
  | .whereLike col v => some (b.WhereLike col v)
  | .whereIn col vs => some (b.WhereIn col vs)
  | .whereEq col v => some (b.WhereEq col v)
  | .whereGTE col v => some (b.WhereGTE col v)
  | .whereLTE col v => some (b.WhereLTE col v)
  | .whereRegex col p => some (b.WhereRegex col p)
  | .whereFuzzy col v t => b.WhereFuzzy col v t
  | .whereOr conds => some (b.WhereOr conds)
  | .groupBy cols => some (b.GroupBy cols)
  | .having c ps => some (b.Having c ps)
  | .orderBy cls => some (b.OrderBy cls)
  | .limit n => b.Limit n
  | .offset n => b.Offset n

/-- Run a sequence of builder calls. -/
def runOps {α : Type} : List (BOp α) → SQLBuilder α → Option (SQLBuilder α)
  | [], b => some b
  | op :: ops, b => (applyOp b op).bind (runOps ops)

/-- Rename the parameter values of a builder (structure map). -/
def bMap {α β : Type} (f : α → β) (b : SQLBuilder α) : SQLBuilder β :=
  { selectCols := b.selectCols
    isDistinct := b.isDistinct
    fromTable := b.fromTable
    joins := b.joins
    wheres := b.wheres
    params := b.params.map f
    groupBys := b.groupBys
    havings := b.havings
    orderBys := b.orderBys
    limitVal := b.limitVal
    offsetVal := b.offsetVal }

/-- Rename the parameter values of one builder call. -/
def opMap {α β : Type} (f : α → β) : BOp α → BOp β
  | .select cols => .select cols
  | .distinct => .distinct
  | .join clause => .join clause
  | .whereC c ps => .whereC c (ps.map f)
  | .whereLike col v => .whereLike col (f v)
  | .whereIn col vs => .whereIn col (vs.map f)
  | .whereEq col v => .whereEq col (f v)
  | .whereGTE col v => .whereGTE col (f v)
  | .whereLTE col v => .whereLTE col (f v)
  | .whereRegex col p => .whereRegex col (f p)
  | .whereFuzzy col v t => .whereFuzzy col (f v) t
  | .whereOr conds => .whereOr (conds.map fun c => ⟨c.SQL, f c.Value⟩)
  | .groupBy cols => .groupBy cols
  | .having c ps => .having c (ps.map f)
  | .orderBy cls => .orderBy cls
  | .limit n => .limit n
  | .offset n => .offset n

/-- The shape of a builder call: parameter values erased, everything else
(including list lengths, thresholds, limit and offset counts) kept. -/
def opShape {α : Type} (op : BOp α) : BOp Unit :=
  opMap (fun _ => ()) op

/-- Full value erasure in the sense of claim C2: erases the parameter
values and also the fuzzy threshold and the limit and offset counts, so
two call sequences related by it "differ only in user-supplied values". -/
def opValueErase {α : Type} : BOp α → BOp Unit
  | .whereFuzzy col _ _ => .whereFuzzy col () 0
  | .limit _ => .limit 0
  | .offset _ => .offset 0
  | op => opShape op

/-- The user-supplied values pushed by one builder call, in order. -/
def opValues {α : Type} : BOp α → List α
  | .whereC _ ps => ps
  | .whereLike _ v => [v]
  | .whereIn _ vs => vs
  | .whereEq _ v => [v]
  | .whereGTE _ v => [v]
  | .whereLTE _ v => [v]
  | .whereRegex _ p => [p]
  | .whereFuzzy _ v _ => [v]
  | .whereOr conds => conds.map (·.Value)
  | .having _ ps => ps
  | _ => []

/-- Embedding of `CacheManager.IsStale` (db/cache.go) as a function of the
persisted local token and the token `RemoteVersion` produced. -/
def IsStale (localVer remoteVer : String) : Bool :=
  if remoteVer = "" then false
  else if localVer = "" then true
  else localVer != remoteVer

/-- Embedding of the outcome of `CacheManager.RemoteVersion`: offline mode
short-circuits to the empty token; otherwise the token the CDN interaction
yields (empty on any network failure, non-200 status or malformed body). -/
def RemoteVersion (offline : Bool) (fetched : String) : String :=
  if offline then "" else fetched

/-- Embedding of the `ParquetFiles` catalog (db/config.go). -/
def ParquetFiles : List (String × String) :=
  [("cards", "parquet/cards.parquet"),
   ("tokens", "parquet/tokens.parquet"),
   ("sets", "parquet/sets.parquet"),
   ("card_identifiers", "parquet/cardIdentifiers.parquet"),
   ("card_legalities", "parquet/cardLegalities.parquet"),
   ("card_foreign_data", "parquet/cardForeignData.parquet"),
   ("card_rulings", "parquet/cardRulings.parquet"),
   ("card_purchase_urls", "parquet/cardPurchaseUrls.parquet"),
   ("set_translations", "parquet/setTranslations.parquet"),
   ("token_identifiers", "parquet/tokenIdentifiers.parquet"),
   ("set_booster_content_weights", "parquet/setBoosterContentWeights.parquet"),
   ("set_booster_contents", "parquet/setBoosterContents.parquet"),
   ("set_booster_sheet_cards", "parquet/setBoosterSheetCards.parquet"),
   ("set_booster_sheets", "parquet/setBoosterSheets.parquet"),
   ("all_printings", "parquet/AllPrintings.parquet"),
   ("all_prices_today", "parquet/AllPricesToday.parquet"),
   ("all_prices", "parquet/AllPrices.parquet"),
   ("tcgplayer_skus", "parquet/TcgplayerSkus.parquet")]

/-- Embedding of the `JSONFiles` catalog (db/config.go). -/
def JSONFiles : List (String × String) :=
  [("keywords", "Keywords.json"),
   ("card_types", "CardTypes.json"),
   ("deck_list", "DeckList.json"),
   ("enum_values", "EnumValues.json"),
   ("meta", "Meta.json")]

/-- Side effects of the cache manager that the claims observe. -/
inductive CacheEff where
  | download (filename : String)
  | saveVersion (v : String)
deriving DecidableEq, Repr

/-- Oracle environment for the cache manager: the filesystem and the CDN. -/
structure CacheEnv where
  fileExists : String → Bool
  fetchedVersion : String
  downloadResult : String → Except String Unit

/-- Embedding of `CacheManager.EnsureParquet` (db/cache.go).  `filepath.Join`
is modelled as `cacheDir ++ "/" ++ filename`. -/
def EnsureParquet (offline : Bool) (env : CacheEnv) (localVer cacheDir viewName : String) :
    Except String String × List CacheEff :=
  match ParquetFiles.lookup viewName with
  | none => (.error ("mtgjson: unknown parquet view \"" ++ viewName ++ "\""), [])
  | some filename =>
    let localPath := cacheDir ++ "/" ++ filename
    let exists_ := env.fileExists localPath
    if !exists_ || IsStale localVer (RemoteVersion offline env.fetchedVersion) then
      if offline then
        if exists_ then (.ok localPath, [])
        else (.error ("mtgjson: parquet file " ++ filename ++
          " not cached and offline mode is enabled"), [])
      else
        match env.downloadResult filename with
        | .error e => (.error e, [.download filename])
        | .ok () =>
          let v := RemoteVersion offline env.fetchedVersion
          if v != "" then (.ok localPath, [.download filename, .saveVersion v])
          else (.ok localPath, [.download filename])
    else (.ok localPath, [])

/-- Embedding of `CacheManager.EnsureJSON` (db/cache.go). -/
def EnsureJSON (offline : Bool) (env : CacheEnv) (localVer cacheDir name : String) :
    Except String String × List CacheEff :=
  match JSONFiles.lookup name with
  | none => (.error ("mtgjson: unknown JSON file \"" ++ name ++ "\""), [])
  | some filename =>
    let localPath := cacheDir ++ "/" ++ filename
    let exists_ := env.fileExists localPath
    if !exists_ || IsStale localVer (RemoteVersion offline env.fetchedVersion) then
      if offline then
        if exists_ then (.ok localPath, [])
        else (.error ("mtgjson: JSON file " ++ filename ++
          " not cached and offline mode is enabled"), [])
      else
        match env.downloadResult filename with
        | .error e => (.error e, [.download filename])
        | .ok () =>
          let v := RemoteVersion offline env.fetchedVersion
          if v != "" then (.ok localPath, [.download filename, .saveVersion v])
          else (.ok localPath, [.download filename])
    else (.ok localPath, [])

/-- Side effects of a connection that the claims observe: a cache lookup
(which may download), a schema probe, a replace-clause construction, and
an executed materialization statement. -/
inductive Eff where
  | cacheEnsure (name : String)
  | buildReplace (path viewName : String)
  | describe (path : String)
  | exec (stmt : String)
deriving DecidableEq, Repr

/-- Oracle environment for a connection: cache behaviour, schema probe,
replace-clause construction and DuckDB statement execution outcomes. -/
structure Env where
  ensureParquet : String → Except String String
  csvReplace : String → String → Except String String
  describeCols : String → Except String (List String)
  exec : String → Except String Unit

/-- The registration state of a `Connection`: its `registeredViews` set,
modelled as a list (membership via `contains`). -/
structure ConnState where
  registeredViews : List String
deriving DecidableEq, Repr

/-- Embedding of `Connection.HasView`. -/
def HasView (st : ConnState) (name : String) : Bool :=
  st.registeredViews.contains name

/-- The `staticCols` identity set of `registerLegalitiesView`. -/
def legalitiesStaticCols : List String := ["uuid"]

/-- The dynamic category (format) columns: the complement of the static
identity set, in schema order (`registerLegalitiesView`). -/
def legalitiesFormatCols (allCols : List String) : List String :=
  allCols.filter (fun c => !(legalitiesStaticCols.contains c))

/-- Double-quoting of a column name (`colsSQL` in `registerLegalitiesView`). -/
def quoteCol (c : String) : String := "\"" ++ c ++ "\""

/-- The statement `registerLegalitiesView` executes: the pass-through view
when there are no format columns, else the UNPIVOT statement. -/
def legalitiesStmt (pathStr : String) (formatCols : List String) : String :=
  if formatCols.isEmpty then
    "CREATE OR REPLACE VIEW card_legalities AS SELECT * FROM read_parquet('" ++ pathStr ++ "')"
  else
    "CREATE OR REPLACE VIEW card_legalities AS " ++
      "SELECT uuid, format, status FROM (" ++
      "  UNPIVOT (SELECT * FROM read_parquet('" ++ pathStr ++ "'))" ++
      "  ON " ++ String.intercalate ", " (formatCols.map quoteCol) ++
      "  INTO NAME format VALUE status" ++
      ") WHERE status IS NOT NULL"

/-- Embedding of `Connection.registerLegalitiesView` (connection.go). -/
def registerLegalitiesView (env : Env) (st : ConnState) (pathStr : String) :
    Except String Unit × ConnState × List Eff :=
  match env.describeCols pathStr with
  | .error e => (.error e, st, [.describe pathStr])
  | .ok allCols =>
    let formatCols := legalitiesFormatCols allCols
    let stmt := legalitiesStmt pathStr formatCols
    match env.exec stmt with
    | .error e =>
      (.error ("mtgjson: register legalities view: " ++ e), st,
       [.describe pathStr, .exec stmt])
    | .ok () =>
      (.ok (), ⟨st.registeredViews ++ ["card_legalities"]⟩,
       [.describe pathStr, .exec stmt])

/-- The create-or-replace statement `ensureView` executes for a generic
view. -/
def createViewStmt (name replaceClause pathStr : String) : String :=
  "CREATE OR REPLACE VIEW " ++ name ++ " AS SELECT *" ++ replaceClause ++
    " FROM read_parquet('" ++ pathStr ++ "')"

/-- Embedding of `Connection.ensureView` (connection.go).  The
double-checked locking collapses to a single membership test in this
sequential model; the path separators of `filepath.ToSlash` are identity
here. -/
def ensureView (env : Env) (st : ConnState) (name : String) :
    Except String Unit × ConnState × List Eff :=
  if st.registeredViews.contains name then (.ok (), st, [])
  else
    match env.ensureParquet name with
    | .error e => (.error e, st, [.cacheEnsure name])
    | .ok path =>
      if name = "card_legalities" then
        let r := registerLegalitiesView env st path
        (r.1, r.2.1, .cacheEnsure name :: r.2.2)
      else
        match env.csvReplace path name with
        | .error e => (.error e, st, [.cacheEnsure name, .buildReplace path name])
        | .ok replaceClause =>
          let stmt := createViewStmt name replaceClause path
          match env.exec stmt with
          | .error e =>
            (.error ("mtgjson: register view " ++ name ++ ": " ++ e), st,
             [.cacheEnsure name, .buildReplace path name, .exec stmt])
          | .ok () =>
            (.ok (), ⟨st.registeredViews ++ [name]⟩,
             [.cacheEnsure name, .buildReplace path name, .exec stmt])

/-- Embedding of `Connection.EnsureViews`: ensure each name in turn,
stopping at the first error. -/
def EnsureViews (env : Env) (st : ConnState) : List String → Except String Unit × ConnState × List Eff
  | [] => (.ok (), st, [])
  | n :: rest =>
    match ensureView env st n with
    | (.error e, st', tr) => (.error e, st', tr)
    | (.ok (), st', tr) =>
      let r := EnsureViews env st' rest
      (r.1, r.2.1, tr ++ r.2.2)

/-- A source row of the wide-format legalities table: column name to
nullable value (`none` is SQL NULL). -/
abbrev Row := List (String × Option String)

/-- Value of a column in a row (missing column reads as NULL). -/
def rowGet (r : Row) (col : String) : Option String :=
  (r.lookup col).getD none

/-- Modelled from the spec: the row semantics of the DuckDB statement
`UNPIVOT ... ON cats INTO NAME format VALUE status` followed by
`WHERE status IS NOT NULL`, which `registerLegalitiesView` issues but the
external engine executes — one `(uuid, format, status)` output row per
(source row, category column) pair whose category value is non-null. -/
def unpivotRows (idCol : String) (catCols : List String) (rows : List Row) :
    List (String × String × String) :=
  rows.flatMap (fun r =>
    catCols.filterMap (fun c =>
      (rowGet r c).map (fun v => ((rowGet r idCol).getD "", c, v))))

/-- Modelled from the spec: the engine semantics of the `col IN (v1..vn)`
predicate the builder emits — a row matches iff its column value equals
one of the listed values. -/
def inPredicateMatches {α : Type} [DecidableEq α] (rowVal : α) (values : List α) : Bool :=
  values.contains rowVal

/-- Modelled from the spec: the engine semantics of the literal `FALSE`
predicate — no row matches. -/
def falsePredicateMatches {α : Type} (_rowVal : α) : Bool := false

/-- The C1 failing input: eight parameters already on the builder (via
`WhereIn`), then a generic `Where` fragment with two local placeholders. -/
def c1Builder : SQLBuilder String :=
  ((NewSQLBuilder String "t").WhereIn "c"
    ["v1", "v2", "v3", "v4", "v5", "v6", "v7", "v8"]).Where "$1 AND $2" ["a", "b"]

/-- The wide-format legality row of the spec's pivot example. -/
def exampleLegalityRow : Row :=
  [("uuid", some "X"), ("modern", some "Legal"), ("legacy", some "Legal"),
   ("vintage", some "Restricted"), ("standard", none)]

/-- A connection environment in which everything succeeds. -/
def okEnv : Env :=
  { ensureParquet := fun _ => .ok "p.parquet"
    csvReplace := fun _ _ => .ok ""
    describeCols := fun _ => .ok ["uuid", "modern"]
    exec := fun _ => .ok () }

/-- A connection environment in which executing any statement fails. -/
def failExecEnv : Env :=
  { ensureParquet := fun _ => .ok "p.parquet"
    csvReplace := fun _ _ => .ok ""
    describeCols := fun _ => .ok ["uuid", "modern"]
    exec := fun _ => .error "boom" }

/-- A cache environment in which every local file exists. -/
def cacheEnvHit : CacheEnv :=
  { fileExists := fun _ => true
    fetchedVersion := "v9"
    downloadResult := fun _ => .ok () }

/-- A cache environment in which no local file exists. -/
def cacheEnvMiss : CacheEnv :=
  { fileExists := fun _ => false
    fetchedVersion := "v9"
    downloadResult := fun _ => .ok () }

lemma whereIn_foldl {α : Type} (values : List α) (ph : List String) (ps : List α) :
    values.foldl SQLBuilder.whereInStep (ph, ps) =
      (ph ++ (List.range values.length).map (fun i => "$" ++ toString (ps.length + i + 1)),
       ps ++ values) := by
  induction values generalizing ph ps with
  | nil => simp
  | cons v vs ih =>
    simp only [List.foldl_cons, SQLBuilder.whereInStep, List.length_cons]
    rw [ih]
    refine Prod.ext ?_ (by simp)
    simp [List.range_succ_eq_map, List.map_map, Function.comp, List.append_assoc,
      Nat.add_assoc, Nat.add_comm, Nat.add_left_comm]

lemma foldl_whereOrStep_map {α β : Type} (f : α → β)
    (conds : List (SQLBuilder.WhereOrCondition α)) (ph : List String) (ps : List α) :
    (conds.map (fun c => SQLBuilder.WhereOrCondition.mk c.SQL (f c.Value))).foldl
        SQLBuilder.whereOrStep (ph, ps.map f) =
      ((conds.foldl SQLBuilder.whereOrStep (ph, ps)).1,
       (conds.foldl SQLBuilder.whereOrStep (ph, ps)).2.map f) := by
  induction conds generalizing ph ps with
  | nil => simp
  | cons c cs ih =>
    simp only [List.map_cons, List.foldl_cons, SQLBuilder.whereOrStep, List.length_map]
    have h := ih (ph ++ [goReplaceAll c.SQL "$1" ("$" ++ toString (ps.length + 1))]) (ps ++ [c.Value])
    simpa [List.map_append] using h

lemma foldl_whereOrStep_params {α : Type}
    (conds : List (SQLBuilder.WhereOrCondition α)) (ph : List String) (ps : List α) :
    (conds.foldl SQLBuilder.whereOrStep (ph, ps)).2 = ps ++ conds.map (·.Value) := by
  induction conds generalizing ph ps with
  | nil => simp
  | cons c cs ih =>
    simp only [List.foldl_cons, SQLBuilder.whereOrStep, List.map_cons]
    rw [ih]
    simp

/-- C10: `WhereOr` with zero conditions is a no-op identity on the builder:
no clause is appended (in particular no empty parentheses), the parameter
list is unchanged, and a subsequent `Build` returns exactly what it would
have returned had `WhereOr` not been called. -/
theorem whereOr_empty_is_identity {α : Type} (b : SQLBuilder α) :
    b.WhereOr [] = b ∧ (b.WhereOr []).Build = b.Build :=
  ⟨rfl, rfl⟩

/-- C4: `IsStale` policy — an unobtainable (empty) remote token is never
stale regardless of the local token; a non-empty remote with no local
token is stale; otherwise staleness is exactly string inequality. -/
theorem isStale_policy (localVer remoteVer : String) :
    (remoteVer = "" → IsStale localVer remoteVer = false) ∧
    (remoteVer ≠ "" → localVer = "" → IsStale localVer remoteVer = true) ∧
    (remoteVer ≠ "" → localVer ≠ "" →
      (IsStale localVer remoteVer = true ↔ localVer ≠ remoteVer)) := by
  refine ⟨fun h => by simp [IsStale, h], fun h h' => by simp [IsStale, h, h'], ?_⟩
  intro h h'
  simp [IsStale, h, h', bne_iff_ne]

/-- Witness for C4, covering the staleness table of the spec. -/
theorem isStale_policy_witness :
    IsStale "v1" "" = false ∧ IsStale "" "v2" = true ∧
      (IsStale "v1" "v2" = true ↔ "v1" ≠ "v2") :=
  ⟨(isStale_policy "v1" "").1 rfl,
   (isStale_policy "" "v2").2.1 (by decide) rfl,
   (isStale_policy "v1" "v2").2.2 (by decide) (by decide)⟩

/-- C1 (failing-input evaluation): with eight parameters already on the
builder, the fragment `"$1 AND $2"` added by `Where` is remapped to
`"$9 AND $90"` — the descending ReplaceAll loop first turns `$2` into
`$10` and then the `$1` pass corrupts that token into `$90`.  Parameter
position 10 is therefore referenced by no placeholder, and the orphan
token `$90` exceeds the parameter count, violating the 1:1 renumbering
contract (a correct remap would produce `"$9 AND $10"`). -/
theorem where_renumbering_collides_on_failing_input :
    c1Builder.wheres = ["c IN ($1, $2, $3, $4, $5, $6, $7, $8)", "$9 AND $90"] ∧
    c1Builder.params.length = 10 ∧
    containsStr c1Builder.Build.1 "$90" = true ∧
    containsStr c1Builder.Build.1 "$10" = false := by decide

/-- C2 (counterexample): two call sequences that differ only in a
user-supplied value — the limit count, as witnessed by `opValueErase`
agreeing on them — nevertheless produce different SQL text from `Build`:
the limit count is interpolated into the SQL (`LIMIT 1` vs `LIMIT 2`)
rather than kept in the parameter list. -/
theorem limit_count_reaches_sql_text :
    ([BOp.limit 1] : List (BOp String)).map opValueErase =
      ([BOp.limit 2] : List (BOp String)).map opValueErase ∧
    Option.map (fun b => (SQLBuilder.Build b).1)
        (runOps [BOp.limit 1] (NewSQLBuilder String "t")) ≠
      Option.map (fun b => (SQLBuilder.Build b).1)
        (runOps [BOp.limit 2] (NewSQLBuilder String "t")) := by
  decide

/-- C6: `WhereIn` with an empty list appends the single predicate `FALSE`
(matching no rows on any dataset, not a SQL error) and leaves the
parameters unchanged; with a non-empty list it appends one freshly
numbered placeholder per value and pushes the values, in order, onto the
parameter list; the engine-side `IN` semantics then matches exactly the
rows whose column value equals one of the listed values. -/
theorem whereIn_empty_matches_nothing_nonempty_exact {α : Type} [DecidableEq α]
    (b : SQLBuilder α) (col : String) (values : List α) (a₁ a₂ a₃ : α) :
    (b.WhereIn col [] = { b with wheres := b.wheres ++ ["FALSE"] }) ∧
    (∀ dataset : List α, dataset.filter (fun rv => falsePredicateMatches rv) = []) ∧
    (values ≠ [] →
      (b.WhereIn col values).wheres =
        b.wheres ++ [col ++ " IN (" ++ String.intercalate ", "
          ((List.range values.length).map
            (fun i => "$" ++ toString (b.params.length + i + 1))) ++ ")"] ∧
      (b.WhereIn col values).params = b.params ++ values) ∧
    (∀ rv : α, inPredicateMatches rv [a₁, a₂, a₃] = true ↔
      (rv = a₁ ∨ rv = a₂ ∨ rv = a₃)) := by
  refine ⟨rfl, fun dataset => by simp [falsePredicateMatches], ?_, ?_⟩
  · intro h
    have hne : values.isEmpty = false := by
      cases values with
      | nil => exact absurd rfl h
      | cons x xs => rfl
    constructor
    · simp [SQLBuilder.WhereIn, hne, whereIn_foldl]
    · simp [SQLBuilder.WhereIn, hne, whereIn_foldl]
  · intro rv
    simp [inPredicateMatches, List.contains]

/-- Witness for C6 at the concrete input of the spec's example. -/
theorem whereIn_empty_matches_nothing_nonempty_exact_witness :
    ((NewSQLBuilder String "cards").WhereIn "uuid" ["abc", "def", "ghi"]).wheres =
      ["uuid IN ($1, $2, $3)"] ∧
    ((NewSQLBuilder String "cards").WhereIn "uuid" ["abc", "def", "ghi"]).params =
      ["abc", "def", "ghi"] ∧
    (inPredicateMatches "def" ["abc", "def", "ghi"] = true ↔
      ("def" = "abc" ∨ "def" = "def" ∨ "def" = "ghi")) := by
  have h := whereIn_empty_matches_nothing_nonempty_exact
    (NewSQLBuilder String "cards") "uuid" ["abc", "def", "ghi"] "abc" "def" "ghi"
  have h3 := h.2.2.1 (by decide)
  exact ⟨h3.1.trans (by decide), h3.2.trans (by decide), h.2.2.2 "def"⟩

/-- C7: `Limit` and `Offset` reject every negative count immediately (a
Go panic, modelled as `none`, so no SQL is produced and no builder state
with the bad value exists), `WhereFuzzy` rejects every threshold outside
`[0,1]` before appending any clause or parameter, and for in-range
inputs none of the three fails. -/
theorem validation_rejects_bad_inputs {α : Type} (b : SQLBuilder α) (n : Int)
    (col : String) (v : α) (t : ℚ) :
    (n < 0 → b.Limit n = none ∧ b.Offset n = none) ∧
    (0 ≤ n → b.Limit n = some { b with limitVal := some n } ∧
      b.Offset n = some { b with offsetVal := some n }) ∧
    ((t < 0 ∨ 1 < t) → b.WhereFuzzy col v t = none) ∧
    (0 ≤ t → t ≤ 1 → (b.WhereFuzzy col v t).isSome = true) := by
  refine ⟨fun h => ⟨by simp [SQLBuilder.Limit, h], by simp [SQLBuilder.Offset, h]⟩,
    fun h => ⟨by simp [SQLBuilder.Limit, not_lt.mpr h],
      by simp [SQLBuilder.Offset, not_lt.mpr h]⟩,
    fun h => by simp [SQLBuilder.WhereFuzzy, h],
    fun h0 h1 => by simp [SQLBuilder.WhereFuzzy, not_lt.mpr h0, not_lt.mpr h1]⟩

/-- Witness for C7 at the concrete inputs of the spec's examples. -/
theorem validation_rejects_bad_inputs_witness :
    (NewSQLBuilder String "t").Limit (-1) = none ∧
    (NewSQLBuilder String "t").Offset (-5) = none ∧
    (NewSQLBuilder String "t").WhereFuzzy "name" "Bolt" 2 = none ∧
    ((NewSQLBuilder String "t").WhereFuzzy "name" "Bolt" ((4 : ℚ) / 5)).isSome = true := by
  have h1 := validation_rejects_bad_inputs (NewSQLBuilder String "t") (-1) "name" "Bolt" (2 : ℚ)
  have h5 := validation_rejects_bad_inputs (NewSQLBuilder String "t") (-5) "name" "Bolt" ((4 : ℚ) / 5)
  exact ⟨(h1.1 (by decide)).1, (h5.1 (by decide)).2,
    h1.2.2.1 (Or.inr (by norm_num)), h5.2.2.2 (by norm_num) (by norm_num)⟩

lemma build_fst_bMap {α β : Type} (f : α → β) (b : SQLBuilder α) :
    ((bMap f b).Build).1 = (b.Build).1 := rfl

lemma foldl_whereInStep_map {α β : Type} (f : α → β) (values : List α)
    (ph : List String) (ps : List α) :
    (values.map f).foldl SQLBuilder.whereInStep (ph, ps.map f) =
      ((values.foldl SQLBuilder.whereInStep (ph, ps)).1,
       (values.foldl SQLBuilder.whereInStep (ph, ps)).2.map f) := by
  rw [whereIn_foldl, whereIn_foldl]
  simp

lemma whereIn_bMap {α β : Type} (f : α → β) (b : SQLBuilder α)
    (col : String) (values : List α) :
    (bMap f b).WhereIn col (values.map f) = bMap f (b.WhereIn col values) := by
  cases values with
  | nil => rfl
  | cons x xs =>
    show SQLBuilder.WhereIn _ col _ = _
    unfold SQLBuilder.WhereIn
    rw [if_neg (by simp), if_neg (by simp)]
    have key := foldl_whereInStep_map f (x :: xs) ([] : List String) b.params
    have hp : (bMap f b).params = b.params.map f := rfl
    rw [hp, key]
    simp [bMap]

lemma whereOr_bMap {α β : Type} (f : α → β) (b : SQLBuilder α)
    (conds : List (SQLBuilder.WhereOrCondition α)) :
    (bMap f b).WhereOr (conds.map fun c => SQLBuilder.WhereOrCondition.mk c.SQL (f c.Value)) =
      bMap f (b.WhereOr conds) := by
  cases conds with
  | nil => rfl
  | cons c cs =>
    show SQLBuilder.WhereOr _ _ = _
    unfold SQLBuilder.WhereOr
    rw [if_neg (by simp), if_neg (by simp)]
    have key := foldl_whereOrStep_map f (c :: cs) ([] : List String) b.params
    have hp : (bMap f b).params = b.params.map f := rfl
    rw [hp, key]
    simp [bMap]

lemma applyOp_bMap {α β : Type} (f : α → β) (b : SQLBuilder α) (op : BOp α) :
    applyOp (bMap f b) (opMap f op) = Option.map (bMap f) (applyOp b op) := by
  cases op with
  | select cols => rfl
  | distinct => rfl
  | join clause => rfl
  | whereC c ps =>
    simp [applyOp, opMap, SQLBuilder.Where, bMap]
  | whereLike col v =>
    simp [applyOp, opMap, SQLBuilder.WhereLike, bMap]
  | whereIn col vs =>
    simpa [applyOp, opMap] using congrArg some (whereIn_bMap f b col vs)
  | whereEq col v =>
    simp [applyOp, opMap, SQLBuilder.WhereEq, bMap]
  | whereGTE col v =>
    simp [applyOp, opMap, SQLBuilder.WhereGTE, bMap]
  | whereLTE col v =>
    simp [applyOp, opMap, SQLBuilder.WhereLTE, bMap]
  | whereRegex col p =>
    simp [applyOp, opMap, SQLBuilder.WhereRegex, bMap]
  | whereFuzzy col v t =>
    by_cases h : t < 0 ∨ t > 1
    · simp [applyOp, opMap, SQLBuilder.WhereFuzzy, h]
    · simp [applyOp, opMap, SQLBuilder.WhereFuzzy, h, bMap]
  | whereOr conds =>
    simpa [applyOp, opMap] using congrArg some (whereOr_bMap f b conds)
  | groupBy cols => rfl
  | having c ps =>
    simp [applyOp, opMap, SQLBuilder.Having, bMap]
  | orderBy cls => rfl
  | limit n =>
    by_cases h : n < 0 <;> simp [applyOp, opMap, SQLBuilder.Limit, h, bMap]
  | offset n =>
    by_cases h : n < 0 <;> simp [applyOp, opMap, SQLBuilder.Offset, h, bMap]

lemma runOps_bMap {α β : Type} (f : α → β) (ops : List (BOp α)) (b : SQLBuilder α) :
    runOps (ops.map (opMap f)) (bMap f b) = Option.map (bMap f) (runOps ops b) := by
  induction ops generalizing b with
  | nil => rfl
  | cons op ops ih =>
    simp only [List.map_cons, runOps, applyOp_bMap]
    cases applyOp b op with
    | none => rfl
    | some b' => simpa using ih b'

lemma foldl_whereInStep_params {α : Type} (values : List α) (ph : List String)
    (ps : List α) :
    (values.foldl SQLBuilder.whereInStep (ph, ps)).2 = ps ++ values := by
  rw [whereIn_foldl]

lemma applyOp_params {α : Type} (b b' : SQLBuilder α) (op : BOp α)
    (h : applyOp b op = some b') : b'.params = b.params ++ opValues op := by
  cases op with
  | select cols =>
    simp only [applyOp, Option.some.injEq] at h; subst h; simp [SQLBuilder.Select, opValues]
  | distinct =>
    simp only [applyOp, Option.some.injEq] at h; subst h; simp [SQLBuilder.Distinct, opValues]
  | join clause =>
    simp only [applyOp, Option.some.injEq] at h; subst h; simp [SQLBuilder.Join, opValues]
  | whereC c ps =>
    simp only [applyOp, Option.some.injEq] at h; subst h; simp [SQLBuilder.Where, opValues]
  | whereLike col v =>
    simp only [applyOp, Option.some.injEq] at h; subst h; simp [SQLBuilder.WhereLike, opValues]
  | whereIn col vs =>
    simp only [applyOp, Option.some.injEq] at h; subst h
    cases vs with
    | nil => simp [SQLBuilder.WhereIn, opValues]
    | cons x xs =>
      simp [SQLBuilder.WhereIn, opValues, SQLBuilder.whereInStep, foldl_whereInStep_params]
  | whereEq col v =>
    simp only [applyOp, Option.some.injEq] at h; subst h; simp [SQLBuilder.WhereEq, opValues]
  | whereGTE col v =>
    simp only [applyOp, Option.some.injEq] at h; subst h; simp [SQLBuilder.WhereGTE, opValues]
  | whereLTE col v =>
    simp only [applyOp, Option.some.injEq] at h; subst h; simp [SQLBuilder.WhereLTE, opValues]
  | whereRegex col p =>
    simp only [applyOp, Option.some.injEq] at h; subst h; simp [SQLBuilder.WhereRegex, opValues]
  | whereFuzzy col v t =>
    simp only [applyOp, SQLBuilder.WhereFuzzy] at h
    split at h
    · simp at h
    · simp only [Option.some.injEq] at h; subst h; simp [opValues]
  | whereOr conds =>
    simp only [applyOp, Option.some.injEq] at h; subst h
    cases conds with
    | nil => simp [SQLBuilder.WhereOr, opValues]
    | cons c cs =>
      simp [SQLBuilder.WhereOr, opValues, SQLBuilder.whereOrStep, foldl_whereOrStep_params]
  | groupBy cols =>
    simp only [applyOp, Option.some.injEq] at h; subst h; simp [SQLBuilder.GroupBy, opValues]
  | having c ps =>
    simp only [applyOp, Option.some.injEq] at h; subst h; simp [SQLBuilder.Having, opValues]
  | orderBy cls =>
    simp only [applyOp, Option.some.injEq] at h; subst h; simp [SQLBuilder.OrderBy, opValues]
  | limit n =>
    simp only [applyOp, SQLBuilder.Limit] at h
    split at h
    · simp at h
    · simp only [Option.some.injEq] at h; subst h; simp [opValues]
  | offset n =>
    simp only [applyOp, SQLBuilder.Offset] at h
    split at h
    · simp at h
    · simp only [Option.some.injEq] at h; subst h; simp [opValues]

lemma runOps_params {α : Type} (ops : List (BOp α)) (b b' : SQLBuilder α)
    (h : runOps ops b = some b') : b'.params = b.params ++ ops.flatMap opValues := by
  induction ops generalizing b with
  | nil =>
    simp only [runOps, Option.some.injEq] at h; subst h; simp
  | cons op ops ih =>
    simp only [runOps] at h
    cases hap : applyOp b op with
    | none => rw [hap] at h; simp at h
    | some b₁ =>
      rw [hap] at h
      simp only [Option.some_bind] at h
      rw [ih b₁ h, applyOp_params b b₁ op hap]
      simp [List.flatMap_cons, List.append_assoc]

/-- C2 (amended): the SQL text returned by `Build` depends only on the
shape of the call sequence — the sequence with all parameter values
erased (`opShape` keeps clause strings, column names, list lengths, the
fuzzy threshold and the limit/offset counts) — so two call sequences
differing only in parameter values yield identical SQL text; and every
parameter value appears in the returned parameter list, in call order.
Unlike the original claim, the fuzzy threshold and the limit and offset
counts are excluded: the code interpolates those validated numerics into
the SQL text (see the counterexample). -/
theorem build_sql_depends_only_on_call_shapes {α : Type} (t : String) :
    (∀ ops₁ ops₂ : List (BOp α), ops₁.map opShape = ops₂.map opShape →
      Option.map (fun b => (SQLBuilder.Build b).1) (runOps ops₁ (NewSQLBuilder α t)) =
        Option.map (fun b => (SQLBuilder.Build b).1) (runOps ops₂ (NewSQLBuilder α t))) ∧
    (∀ (ops : List (BOp α)) (b' : SQLBuilder α),
      runOps ops (NewSQLBuilder α t) = some b' → b'.params = ops.flatMap opValues) := by
  constructor
  · intro ops₁ ops₂ h
    have hmaps : ops₁.map (opMap (fun _ : α => ())) = ops₂.map (opMap (fun _ : α => ())) := h
    have e1 := runOps_bMap (fun _ : α => ()) ops₁ (NewSQLBuilder α t)
    have e2 := runOps_bMap (fun _ : α => ()) ops₂ (NewSQLBuilder α t)
    rw [hmaps] at e1
    have e3 : Option.map (bMap (fun _ : α => ())) (runOps ops₁ (NewSQLBuilder α t)) =
        Option.map (bMap (fun _ : α => ())) (runOps ops₂ (NewSQLBuilder α t)) := by
      rw [← e1, ← e2]
    have e4 := congrArg (Option.map (fun bu : SQLBuilder Unit => (SQLBuilder.Build bu).1)) e3
    simpa [Option.map_map, Function.comp, build_fst_bMap] using e4
  · intro ops b' h
    have hp := runOps_params ops (NewSQLBuilder α t) b' h
    simpa [NewSQLBuilder] using hp

/-- Witness for C2 (amended) at concrete call sequences differing only in
the parameter value. -/
theorem build_sql_depends_only_on_call_shapes_witness :
    Option.map (fun b => (SQLBuilder.Build b).1)
        (runOps [BOp.whereEq "name" "Bolt"] (NewSQLBuilder String "cards")) =
      Option.map (fun b => (SQLBuilder.Build b).1)
        (runOps [BOp.whereEq "name" "Counterspell"] (NewSQLBuilder String "cards")) ∧
    ((NewSQLBuilder String "cards").WhereEq "name" "Bolt").params =
      ([BOp.whereEq "name" "Bolt"] : List (BOp String)).flatMap opValues := by
  have h := @build_sql_depends_only_on_call_shapes String "cards"
  exact ⟨h.1 [BOp.whereEq "name" "Bolt"] [BOp.whereEq "name" "Counterspell"] rfl,
    h.2 [BOp.whereEq "name" "Bolt"] ((NewSQLBuilder String "cards").WhereEq "name" "Bolt") rfl⟩

lemma contains_append_self (l : List String) (a : String) :
    (l ++ [a]).contains a = true := by
  simp

lemma ensureView_registered (env : Env) (st : ConnState) (name : String)
    (h : st.registeredViews.contains name = true) :
    ensureView env st name = (.ok (), st, []) := by
  have h' : name ∈ st.registeredViews := by simpa using h
  simp [ensureView, h']

/-- C3: after a successful `ensureView name`, the name is registered, and
a second call with the same name performs no materialization work at all:
it returns success immediately, leaves the state unchanged, and emits an
empty effect trace — no cache access (hence no download) and no
create/replace statement. -/
theorem ensureView_idempotent (env : Env) (st : ConnState) (name : String)
    (st' : ConnState) (tr : List Eff)
    (h : ensureView env st name = (.ok (), st', tr)) :
    HasView st' name = true ∧ ensureView env st' name = (.ok (), st', []) := by
  have hmem : st'.registeredViews.contains name = true := by
    simp only [ensureView] at h
    split at h
    · next hc =>
      simp only [Prod.ext_iff, and_true, true_and] at h
      obtain ⟨h2, -⟩ := h
      exact h2 ▸ hc
    · next hc =>
      split at h
      · simp at h
      · next path hp =>
        split at h
        · next hn =>
          simp only [registerLegalitiesView] at h
          split at h
          · simp at h
          · split at h
            · simp at h
            · simp only [Prod.ext_iff, and_true, true_and] at h
              obtain ⟨h2, -⟩ := h
              rw [← h2]
              simp [hn]
        · split at h
          · simp at h
          · split at h
            · simp at h
            · simp only [Prod.ext_iff, and_true, true_and] at h
              obtain ⟨h2, -⟩ := h
              rw [← h2]
              exact contains_append_self st.registeredViews name
  exact ⟨hmem, ensureView_registered env st' name hmem⟩

/-- Witness for C3 at a concrete environment and view name. -/
theorem ensureView_idempotent_witness :
    HasView (ConnState.mk ["cards"]) "cards" = true ∧
    ensureView okEnv (ConnState.mk ["cards"]) "cards" =
      (.ok (), ConnState.mk ["cards"], []) :=
  ensureView_idempotent okEnv (ConnState.mk []) "cards" (ConnState.mk ["cards"])
    [.cacheEnsure "cards", .buildReplace "p.parquet" "cards",
     .exec (createViewStmt "cards" "" "p.parquet")] rfl

/-- C8: when the create/replace materialization statement fails, both the
generic path and the legalities path of `ensureView` return a wrapped
error naming the view, and the connection state is returned unchanged —
the name is not marked registered, so `HasView` stays false and a later
retry is possible. -/
theorem ensureView_failure_leaves_unregistered (env : Env) (st : ConnState)
    (name path rc e : String) :
    (st.registeredViews.contains name = false →
      name ≠ "card_legalities" →
      env.ensureParquet name = .ok path →
      env.csvReplace path name = .ok rc →
      env.exec (createViewStmt name rc path) = .error e →
      ensureView env st name =
        (.error ("mtgjson: register view " ++ name ++ ": " ++ e), st,
         [.cacheEnsure name, .buildReplace path name,
          .exec (createViewStmt name rc path)]) ∧
        HasView st name = false) ∧
    (∀ cols : List String,
      st.registeredViews.contains "card_legalities" = false →
      env.ensureParquet "card_legalities" = .ok path →
      env.describeCols path = .ok cols →
      env.exec (legalitiesStmt path (legalitiesFormatCols cols)) = .error e →
      ensureView env st "card_legalities" =
        (.error ("mtgjson: register legalities view: " ++ e), st,
         [.cacheEnsure "card_legalities", .describe path,
          .exec (legalitiesStmt path (legalitiesFormatCols cols))]) ∧
        HasView st "card_legalities" = false) := by
  constructor
  · intro hreg hn hp hr he
    have hreg' : ¬ name ∈ st.registeredViews := by
      simpa using hreg
    refine ⟨?_, by simpa [HasView] using hreg⟩
    simp [ensureView, hreg', hp, hn, hr, he]
  · intro cols hreg hp hd he
    have hreg' : ¬ "card_legalities" ∈ st.registeredViews := by
      simpa using hreg
    refine ⟨?_, by simpa [HasView] using hreg⟩
    simp [ensureView, registerLegalitiesView, hreg', hp, hd, he]

/-- Witness for C8 at a concrete failing environment. -/
theorem ensureView_failure_leaves_unregistered_witness :
    (ensureView failExecEnv (ConnState.mk []) "cards" =
      (.error ("mtgjson: register view " ++ "cards" ++ ": " ++ "boom"), ConnState.mk [],
       [.cacheEnsure "cards", .buildReplace "p.parquet" "cards",
        .exec (createViewStmt "cards" "" "p.parquet")]) ∧
      HasView (ConnState.mk []) "cards" = false) ∧
    (ensureView failExecEnv (ConnState.mk []) "card_legalities" =
      (.error ("mtgjson: register legalities view: " ++ "boom"), ConnState.mk [],
       [.cacheEnsure "card_legalities", .describe "p.parquet",
        .exec (legalitiesStmt "p.parquet" (legalitiesFormatCols ["uuid", "modern"]))]) ∧
      HasView (ConnState.mk []) "card_legalities" = false) := by
  have h := ensureView_failure_leaves_unregistered failExecEnv (ConnState.mk [])
    "cards" "p.parquet" "" "boom"
  have h2 := ensureView_failure_leaves_unregistered failExecEnv (ConnState.mk [])
    "card_legalities" "p.parquet" "" "boom"
  exact ⟨h.1 rfl (by decide) rfl rfl rfl, h2.2 ["uuid", "modern"] rfl rfl rfl rfl⟩

/-- C9: in offline mode, for every known resource name, `EnsureParquet`
and `EnsureJSON` return the local path unchanged (and never fail) when
the file exists — even if it would be stale — and fail with a
"not cached ... offline" error when it does not; in both cases the effect
trace is empty, so no download is performed. -/
theorem offline_prefers_cache_over_failure (env : CacheEnv)
    (localVer cacheDir name filename : String) :
    (ParquetFiles.lookup name = some filename →
      (env.fileExists (cacheDir ++ "/" ++ filename) = true →
        EnsureParquet true env localVer cacheDir name =
          (.ok (cacheDir ++ "/" ++ filename), [])) ∧
      (env.fileExists (cacheDir ++ "/" ++ filename) = false →
        EnsureParquet true env localVer cacheDir name =
          (.error ("mtgjson: parquet file " ++ filename ++
            " not cached and offline mode is enabled"), []))) ∧
    (JSONFiles.lookup name = some filename →
      (env.fileExists (cacheDir ++ "/" ++ filename) = true →
        EnsureJSON true env localVer cacheDir name =
          (.ok (cacheDir ++ "/" ++ filename), [])) ∧
      (env.fileExists (cacheDir ++ "/" ++ filename) = false →
        EnsureJSON true env localVer cacheDir name =
          (.error ("mtgjson: JSON file " ++ filename ++
            " not cached and offline mode is enabled"), []))) := by
  constructor
  · intro hl
    constructor
    · intro hx
      simp [EnsureParquet, hl, hx, RemoteVersion, IsStale]
    · intro hx
      simp [EnsureParquet, hl, hx, RemoteVersion, IsStale]
  · intro hl
    constructor
    · intro hx
      simp [EnsureJSON, hl, hx, RemoteVersion, IsStale]
    · intro hx
      simp [EnsureJSON, hl, hx, RemoteVersion, IsStale]

/-- Witness for C9 at concrete resource names and cache environments. -/
theorem offline_prefers_cache_over_failure_witness :
    (EnsureParquet true cacheEnvHit "v1" "cache" "cards" =
      (.ok ("cache" ++ "/" ++ "parquet/cards.parquet"), [])) ∧
    (EnsureParquet true cacheEnvMiss "v1" "cache" "cards" =
      (.error ("mtgjson: parquet file " ++ "parquet/cards.parquet" ++
        " not cached and offline mode is enabled"), [])) ∧
    (EnsureJSON true cacheEnvHit "v1" "cache" "keywords" =
      (.ok ("cache" ++ "/" ++ "Keywords.json"), [])) ∧
    (EnsureJSON true cacheEnvMiss "v1" "cache" "keywords" =
      (.error ("mtgjson: JSON file " ++ "Keywords.json" ++
        " not cached and offline mode is enabled"), [])) := by
  have hp1 := offline_prefers_cache_over_failure cacheEnvHit "v1" "cache" "cards"
    "parquet/cards.parquet"
  have hp2 := offline_prefers_cache_over_failure cacheEnvMiss "v1" "cache" "cards"
    "parquet/cards.parquet"
  have hj1 := offline_prefers_cache_over_failure cacheEnvHit "v1" "cache" "keywords"
    "Keywords.json"
  have hj2 := offline_prefers_cache_over_failure cacheEnvMiss "v1" "cache" "keywords"
    "Keywords.json"
  exact ⟨(hp1.1 (by decide)).1 rfl, (hp2.1 (by decide)).2 rfl,
    (hj1.2 (by decide)).1 rfl, (hj2.2 (by decide)).2 rfl⟩

lemma length_filterMap_isSome {γ δ : Type} (f : γ → Option δ) (l : List γ) :
    (l.filterMap f).length = (l.filter (fun c => (f c).isSome)).length := by
  induction l with
  | nil => rfl
  | cons x xs ih =>
    cases hf : f x <;> simp [List.filterMap_cons, hf, ih]

/-- C5: the category columns of the legalities view are exactly the schema
complement of the identity set `{uuid}`; the modelled pivot produces
exactly one `(uuid, format, status)` row per (source row, category
column) pair whose value is non-null — on the spec's example row the view
holds exactly the 3 expected rows and none for the null-valued
`standard` — and when there are no category columns, the registered
statement is the pass-through of the source. -/
theorem legalities_pivot_exact (idCol : String) (cats : List String)
    (rows : List Row) (path : String) (allCols : List String) :
    (unpivotRows idCol cats rows).length =
      (rows.map (fun r => (cats.filter (fun c => (rowGet r c).isSome)).length)).sum ∧
    legalitiesFormatCols ["uuid", "modern", "legacy", "vintage", "standard"] =
      ["modern", "legacy", "vintage", "standard"] ∧
    unpivotRows "uuid"
        (legalitiesFormatCols ["uuid", "modern", "legacy", "vintage", "standard"])
        [exampleLegalityRow] =
      [("X", "modern", "Legal"), ("X", "legacy", "Legal"),
       ("X", "vintage", "Restricted")] ∧
    (legalitiesFormatCols allCols = [] →
      legalitiesStmt path (legalitiesFormatCols allCols) =
        "CREATE OR REPLACE VIEW card_legalities AS SELECT * FROM read_parquet('" ++
          path ++ "')") := by
  refine ⟨?_, by decide, by decide, ?_⟩
  · unfold unpivotRows
    rw [List.length_flatMap]
    congr 1
    refine List.map_congr_left fun r hr => ?_
    simp only [Function.comp_apply]
    rw [length_filterMap_isSome]
    simp
  · intro h
    simp [legalitiesStmt, h]

/-- Witness for C5: the empty-complement pass-through at a concrete
schema, together with the concrete pivot example. -/
theorem legalities_pivot_exact_witness :
    legalitiesStmt "p" (legalitiesFormatCols ["uuid"]) =
      "CREATE OR REPLACE VIEW card_legalities AS SELECT * FROM read_parquet('" ++
        "p" ++ "')" ∧
    unpivotRows "uuid"
        (legalitiesFormatCols ["uuid", "modern", "legacy", "vintage", "standard"])
        [exampleLegalityRow] =
      [("X", "modern", "Legal"), ("X", "legacy", "Legal"),
       ("X", "vintage", "Restricted")] := by
  have h := legalities_pivot_exact "uuid" [] [] "p" ["uuid"]
  exact ⟨h.2.2.2 (by decide), h.2.2.1⟩
